import Mathlib

/-!
Verification of the KOfam setup pipeline (anvio/kofam.py).

We give a shallow embedding of the module: the catalog of KO entries
(`ko_dict`), the skip-list classification (`get_ko_skip_list`), the
completeness check (`confirm_downloaded_files`), and the setup pipeline
(`KofamSetup`: construction guard, download, decompression, concatenation
and the external `hmmpress` indexing step).  The filesystem is modelled as
the list of existing file paths, and external collaborators (network
transfer, archive extraction, the `hmmpress` binary) are modelled as
oracles supplied in an `Oracles` record.  Each stage also records the visible
side effects it performs in an event trace, so that ordering and
frame properties of the pipeline can be stated.
-/

/-- Model of Python `os.path.join(a, b)` for the relative second components
used in this module: the two parts glued with a path separator. -/
def ojoin (a b : String) : String := a ++ "/" ++ b

/-- One row of the `ko_list` file: the per-KO metadata columns keyed by the
header names (knum is the key of the enclosing dictionary). -/
structure KoEntry where
  threshold : String
  score_type : String
  profile_type : String
  fmeasure : String
  nseq : String
  nseq_used : String
  alen : String
  mlen : String
  eff_nseq : String
  re_pos : String
  definition : String
  deriving DecidableEq

/-- Column access `self.ko_dict[k][c]` for the column names used by the
module (`F-measure` and `re/pos` are the literal header strings). -/
def KoEntry.col (e : KoEntry) (c : String) : String :=
  if c = "threshold" then e.threshold
  else if c = "score_type" then e.score_type
  else if c = "profile_type" then e.profile_type
  else if c = "F-measure" then e.fmeasure
  else if c = "nseq" then e.nseq
  else if c = "nseq_used" then e.nseq_used
  else if c = "alen" then e.alen
  else if c = "mlen" then e.mlen
  else if c = "eff_nseq" then e.eff_nseq
  else if c = "re/pos" then e.re_pos
  else e.definition

/-- The catalog: `self.ko_dict`, a dictionary from knum to its row, in
insertion (file) order. -/
abbrev KoDict := List (String × KoEntry)

/-- The fixed list of columns checked by `get_ko_skip_list`
(`col_names_to_check` in the source). -/
def col_names_to_check : List String :=
  ["threshold", "score_type", "profile_type", "F-measure", "nseq",
   "nseq_used", "alen", "mlen", "eff_nseq", "re/pos"]

/-- The inner loop of `get_ko_skip_list`: `should_skip` stays `True`
unless some checked column differs from the hyphen sentinel (the loop
breaks at the first non-hyphen value, which is exactly a short-circuit
conjunction over the column list). -/
def should_skip (e : KoEntry) : Bool :=
  col_names_to_check.all (fun c => e.col c == "-")

/-- `KofamContext.get_ko_skip_list`: walk the catalog in order and collect
every knum whose checked columns are all the hyphen sentinel. -/
def get_ko_skip_list : KoDict → List String
  | [] => []
  | (k, e) :: rest =>
    if should_skip e then k :: get_ko_skip_list rest
    else get_ko_skip_list rest

/-- `KofamContext.__init__` resolution of the data directory:
`A('kofam_data_dir') or os.path.join(dirname, 'data/misc/KEGG')`.  The
argument is `none` when absent from the namespace; Python `or` also falls
through on a falsy (empty) string. -/
def resolve_kofam_data_dir (kofam_data_dir_arg : Option String) (anvio_dirname : String) : String :=
  match kofam_data_dir_arg with
  | none => ojoin anvio_dirname "data/misc/KEGG"
  | some s => if s = "" then ojoin anvio_dirname "data/misc/KEGG" else s

/-- Errors raised by the module.  `configError` models anvio `ConfigError`
with its message; `externalError` models failures surfaced by external
collaborators (download, extraction). -/
inductive KofamError where
  | configError (msg : String)
  | externalError (msg : String)
  deriving DecidableEq

/-- Expected path of one profile:
`os.path.join(self.kofam_data_dir, "profiles/%s.hmm" % k)`. -/
def hmm_path (dir k : String) : String := ojoin dir ("profiles/" ++ k ++ ".hmm")

/-- Message of the `ConfigError` raised by `confirm_downloaded_files` for a
missing profile file. -/
def confirm_err_msg (p : String) : String :=
  "The KOfam HMM profile at " ++ p ++
    " does not exist. This probably means that something went wrong while downloading the KOfam database. Please run anvi-setup-kegg-kofams with the --reset flag."

/-- `KofamSetup.confirm_downloaded_files`: for every knum of the catalog
that is not in the skip list, the expected profile file must exist; the
first non-skip knum whose file is absent raises a `ConfigError` naming the
expected path.  The filesystem is the list `fs` of existing paths. -/
def confirm_downloaded_files (dir : String) (ko_nums ko_skip_list fs : List String) :
    Except KofamError Unit :=
  match ko_nums with
  | [] => Except.ok ()
  | k :: rest =>
    if k ∈ ko_skip_list then confirm_downloaded_files dir rest ko_skip_list fs
    else if hmm_path dir k ∈ fs then confirm_downloaded_files dir rest ko_skip_list fs
    else Except.error (KofamError.configError (confirm_err_msg (hmm_path dir k)))

/- ------------------------------------------------------------------ -/
/- Helper lemmas about the catalog functions.                          -/
/- ------------------------------------------------------------------ -/

theorem mem_get_ko_skip_list {d : KoDict} {k : String} :
    k ∈ get_ko_skip_list d ↔ ∃ e, (k, e) ∈ d ∧ should_skip e = true := by
  induction d with
  | nil => simp [get_ko_skip_list]
  | cons p rest ih =>
    obtain ⟨k', e'⟩ := p
    by_cases hs : should_skip e'
    · simp only [get_ko_skip_list, if_pos hs, List.mem_cons, ih]
      constructor
      · rintro (rfl | ⟨e, he, hse⟩)
        · exact ⟨e', Or.inl rfl, hs⟩
        · exact ⟨e, Or.inr he, hse⟩
      · rintro ⟨e, (he | he), hse⟩
        · exact Or.inl (congrArg Prod.fst he)
        · exact Or.inr ⟨e, he, hse⟩
    · simp only [get_ko_skip_list, if_neg hs, ih, List.mem_cons]
      constructor
      · rintro ⟨e, he, hse⟩
        exact ⟨e, Or.inr he, hse⟩
      · rintro ⟨e, (he | he), hse⟩
        · cases he
          exact absurd hse hs
        · exact ⟨e, he, hse⟩

theorem keyNodup_entry_unique {d : KoDict} {k : String} {a b : KoEntry}
    (hnd : (d.map Prod.fst).Nodup) (ha : (k, a) ∈ d) (hb : (k, b) ∈ d) : a = b := by
  induction d with
  | nil => cases ha
  | cons p rest ih =>
    obtain ⟨k', e'⟩ := p
    rw [List.map_cons, List.nodup_cons] at hnd
    rcases List.mem_cons.mp ha with ha1 | ha1
    · rcases List.mem_cons.mp hb with hb1 | hb1
      · cases ha1; cases hb1; rfl
      · cases ha1
        exact absurd (List.mem_map.mpr ⟨(k, b), hb1, rfl⟩) hnd.1
    · rcases List.mem_cons.mp hb with hb1 | hb1
      · cases hb1
        exact absurd (List.mem_map.mpr ⟨(k, a), ha1, rfl⟩) hnd.1
      · exact ih hnd.2 ha1 hb1

theorem should_skip_iff {e : KoEntry} :
    should_skip e = true ↔ ∀ c ∈ col_names_to_check, e.col c = "-" := by
  simp [should_skip, List.all_eq_true]

/- ------------------------------------------------------------------ -/
/- Claims about the catalog functions.                                 -/
/- ------------------------------------------------------------------ -/

/-- Claim C1: for a catalog with unique identifiers, an identifier is in
the skip list returned by `get_ko_skip_list` if and only if every one of
the ten designated columns of that identifier's entry equals the hyphen
sentinel. -/
theorem get_ko_skip_list_claim1 (d : KoDict) (k : String) (e : KoEntry)
    (hnd : (d.map Prod.fst).Nodup) (hke : (k, e) ∈ d) :
    k ∈ get_ko_skip_list d ↔ ∀ c ∈ col_names_to_check, e.col c = "-" := by
  rw [mem_get_ko_skip_list]
  constructor
  · rintro ⟨e', he', hse⟩
    have he : e' = e := keyNodup_entry_unique hnd he' hke
    subst he
    exact should_skip_iff.mp hse
  · intro h
    exact ⟨e, hke, should_skip_iff.mpr h⟩

/-- Sample catalog rows used for concrete evaluations: a populated entry
(`K00001`) and a placeholder-only RNA entry (`K14936`). -/
def realEntry : KoEntry :=
  ⟨"329.57", "domain", "trim", "0.231663", "1473", "1069", "1798", "371",
   "17.12", "0.590", "alcohol dehydrogenase"⟩

def dashEntry : KoEntry :=
  ⟨"-", "-", "-", "-", "-", "-", "-", "-", "-", "-", "small nucleolar RNA snR191"⟩

/-- Witness for C1 at a concrete catalog: the all-hyphen entry `K14936` is
classified into the skip list. -/
theorem claim1_witness :
    "K14936" ∈ get_ko_skip_list [("K00001", realEntry), ("K14936", dashEntry)] :=
  (get_ko_skip_list_claim1 [("K00001", realEntry), ("K14936", dashEntry)]
    "K14936" dashEntry (by decide) (by decide)).mpr (by decide)

/-- Claim C7: `get_ko_skip_list` is a total deterministic function of the
catalog, and on the empty catalog it returns the empty skip list. -/
theorem get_ko_skip_list_claim7 :
    get_ko_skip_list [] = [] ∧
      ∀ d : KoDict, get_ko_skip_list d = get_ko_skip_list d :=
  ⟨rfl, fun _ => rfl⟩

/-- Claim C10: the data directory falls back to the default derived from
the installation directory both when the argument is absent and when it is
the (falsy) empty string; a non-empty override is taken verbatim. -/
theorem resolve_dir_claim10 (anvio_dirname s : String) :
    resolve_kofam_data_dir none anvio_dirname = ojoin anvio_dirname "data/misc/KEGG" ∧
    resolve_kofam_data_dir (some "") anvio_dirname = ojoin anvio_dirname "data/misc/KEGG" ∧
    (s ≠ "" → resolve_kofam_data_dir (some s) anvio_dirname = s) := by
  refine ⟨rfl, rfl, fun h => ?_⟩
  simp [resolve_kofam_data_dir, h]

/-- Witness for C10: a concrete non-empty override is kept. -/
theorem claim10_witness :
    resolve_kofam_data_dir (some "/custom/kegg") "/opt/anvio" = "/custom/kegg" :=
  (resolve_dir_claim10 "/opt/anvio" "/custom/kegg").2.2 (by decide)

/- ------------------------------------------------------------------ -/
/- Claim C2: the completeness check.                                   -/
/- ------------------------------------------------------------------ -/

theorem confirm_ok_iff (dir : String) (ko_nums skip fs : List String) :
    confirm_downloaded_files dir ko_nums skip fs = Except.ok () ↔
      ∀ k ∈ ko_nums, k ∉ skip → hmm_path dir k ∈ fs := by
  induction ko_nums with
  | nil => simp [confirm_downloaded_files]
  | cons k rest ih =>
    by_cases hsk : k ∈ skip
    · simp only [confirm_downloaded_files, if_pos hsk, ih, List.mem_cons]
      constructor
      · rintro h j (rfl | hj) hns
        · exact absurd hsk hns
        · exact h j hj hns
      · intro h j hj hns
        exact h j (Or.inr hj) hns
    · by_cases hfs : hmm_path dir k ∈ fs
      · simp only [confirm_downloaded_files, if_neg hsk, if_pos hfs, ih, List.mem_cons]
        constructor
        · rintro h j (rfl | hj) hns
          · exact hfs
          · exact h j hj hns
        · intro h j hj hns
          exact h j (Or.inr hj) hns
      · simp only [confirm_downloaded_files, if_neg hsk, if_neg hfs]
        constructor
        · intro h
          cases h
        · intro h
          exact absurd (h k (List.mem_cons_self k rest) hsk) hfs

theorem confirm_first_missing (dir : String) (skip fs : List String) :
    ∀ pre k post, (∀ j ∈ pre, j ∉ skip → hmm_path dir j ∈ fs) →
      k ∉ skip → hmm_path dir k ∉ fs →
      confirm_downloaded_files dir (pre ++ k :: post) skip fs =
        Except.error (KofamError.configError (confirm_err_msg (hmm_path dir k))) := by
  intro pre
  induction pre with
  | nil =>
    intro k post _ hks hkf
    simp only [List.nil_append, confirm_downloaded_files, if_neg hks, if_neg hkf]
  | cons j pre' ih =>
    intro k post hpre hks hkf
    have hj := hpre j (List.mem_cons_self j pre')
    have hrest : ∀ i ∈ pre', i ∉ skip → hmm_path dir i ∈ fs :=
      fun i hi => hpre i (List.mem_cons_of_mem j hi)
    by_cases hjs : j ∈ skip
    · simpa only [List.cons_append, confirm_downloaded_files, if_pos hjs] using
        ih k post hrest hks hkf
    · have hjf := hj hjs
      simpa only [List.cons_append, confirm_downloaded_files, if_neg hjs, if_pos hjf] using
        ih k post hrest hks hkf

/-- Claim C2: `confirm_downloaded_files` succeeds exactly when every
non-skip identifier's profile file exists, and on the first non-skip
identifier whose file is missing it raises a `ConfigError` naming the
expected profile path. -/
theorem confirm_downloaded_files_claim2 (dir : String) (ko_nums skip fs : List String) :
    (confirm_downloaded_files dir ko_nums skip fs = Except.ok () ↔
       ∀ k ∈ ko_nums, k ∉ skip → hmm_path dir k ∈ fs) ∧
    (∀ pre k post, ko_nums = pre ++ k :: post →
       (∀ j ∈ pre, j ∉ skip → hmm_path dir j ∈ fs) →
       k ∉ skip → hmm_path dir k ∉ fs →
       confirm_downloaded_files dir ko_nums skip fs =
         Except.error (KofamError.configError (confirm_err_msg (hmm_path dir k)))) := by
  refine ⟨confirm_ok_iff dir ko_nums skip fs, ?_⟩
  intro pre k post hsplit hpre hks hkf
  subst hsplit
  exact confirm_first_missing dir skip fs pre k post hpre hks hkf

/-- Witness for C2: on a one-identifier catalog with an empty filesystem
the check fails with the `ConfigError` naming the expected path. -/
theorem claim2_witness :
    confirm_downloaded_files "KEGG" ["K00001"] [] [] =
      Except.error (KofamError.configError (confirm_err_msg (hmm_path "KEGG" "K00001"))) :=
  (confirm_downloaded_files_claim2 "KEGG" ["K00001"] [] []).2 [] "K00001" [] rfl
    (by intro j hj; cases hj) (by decide) (by decide)

/- ------------------------------------------------------------------ -/
/- String and path helpers for the filesystem model.                   -/
/- ------------------------------------------------------------------ -/

/-- Character-list prefix test, used to model "path p lies under
directory d" as "(d ++ /) is a prefix of p". -/
def strPre : List Char → List Char → Bool
  | [], _ => true
  | _ :: _, [] => false
  | a :: as, b :: bs => a == b && strPre as bs

/-- `p` lies strictly under directory `d` (as removed by `shutil.rmtree(d)`). -/
def underDir (d p : String) : Bool := strPre (d ++ "/").data p.data

/-- Model of Python `str.endswith`: the suffix, reversed, is a prefix of
the reversed string. -/
def endsWithS (s suffix : String) : Bool := strPre suffix.data.reverse s.data.reverse

theorem strPre_append (l : List Char) : ∀ a b, strPre (l ++ a) (l ++ b) = strPre a b := by
  induction l with
  | nil => intro a b; rfl
  | cons c l ih => intro a b; simp [strPre, ih]

theorem strPre_self_append (l m : List Char) : strPre l (l ++ m) = true := by
  induction l with
  | nil => rfl
  | cons c l ih => simp [strPre, ih]

theorem str_append_cancel_left {a b c : String} (h : a ++ b = a ++ c) : b = c := by
  apply String.ext
  have hd : a.data ++ b.data = a.data ++ c.data := by
    have := congrArg String.data h
    simpa [String.data_append] using this
  exact List.append_cancel_left hd

theorem ojoin_right_inj {d a b : String} (h : ojoin d a = ojoin d b) : a = b := by
  unfold ojoin at h
  rw [String.append_assoc, String.append_assoc] at h
  exact str_append_cancel_left (str_append_cancel_left h)

theorem underDir_ojoin (d sub x : String) :
    underDir (ojoin d sub) (ojoin d x) = strPre (sub.data ++ ('/' :: [])) x.data := by
  unfold underDir ojoin
  have h1 : (d ++ "/" ++ sub ++ "/").data = d.data ++ ('/' :: (sub.data ++ ('/' :: []))) := by
    simp [String.data_append]
  have h2 : (d ++ "/" ++ x).data = d.data ++ ('/' :: x.data) := by
    simp [String.data_append]
  rw [h1, h2]
  have h3 := strPre_append (d.data ++ ['/']) (sub.data ++ ['/']) x.data
  simpa [List.append_assoc] using h3

theorem underDir_self_ojoin (d x : String) : underDir d (ojoin d x) = true := by
  unfold underDir ojoin
  have h2 : (d ++ "/" ++ x).data = (d ++ "/").data ++ x.data := by
    simp [String.data_append]
  rw [h2]
  exact strPre_self_append _ _

/- ------------------------------------------------------------------ -/
/- The pipeline state, events and external oracles.                    -/
/- ------------------------------------------------------------------ -/

/-- The filesystem: the list of file paths that currently exist. -/
abbrev FS := List String

/-- Visible side effects performed by the pipeline stages. -/
inductive Event where
  | downloadFile (url dest : String)
  | tarExtract (path : String)
  | gzipDecompress (path : String)
  | concatenate (target : String) (sources : List String)
  | rmtree (path : String)
  | runCommand (cmd : List String) (log : String)
  | removeFile (path : String)
  deriving DecidableEq

def isConcatEvent : Event → Bool
  | Event.concatenate _ _ => true
  | _ => false

def isIndexerEvent : Event → Bool
  | Event.runCommand _ _ => true
  | _ => false

/-- Pipeline state: the filesystem plus the trace of performed effects. -/
structure St where
  fs : FS
  trace : List Event
  deriving DecidableEq

/-- A stage: transforms the state and either returns or raises. -/
abbrev M := St → Except KofamError Unit × St

/-- Sequencing with Python exception semantics: the second stage runs only
if the first returned normally. -/
def seqM (a b : M) : M := fun s =>
  match a s with
  | (Except.ok _, s1) => b s1
  | (Except.error e, s1) => (Except.error e, s1)

/-- Oracles for the external collaborators: per-URL download outcome,
per-archive extraction outcome and produced files, and the exit status of
the `hmmpress` process. -/
structure Oracles where
  download_err : String → Option KofamError
  tar_err : String → Option KofamError
  tar_output : String → List String
  gzip_err : String → Option KofamError
  gzip_output : String → List String
  hmmpress_ret : Int

/-- The shared context state: the resolved data directory and the loaded
catalog (`self.kofam_data_dir`, `self.ko_dict`). -/
structure KofamContextS where
  kofam_data_dir : String
  ko_dict : KoDict

/-- `self.kofam_hmm_file_path`: the compiled concatenated profile file. -/
def kofam_hmm_file_path (ctx : KofamContextS) : String :=
  ojoin ctx.kofam_data_dir "Kofam.hmm"

/-- `self.ko_skip_list`, computed once at context construction. -/
def KofamContextS.ko_skip_list (ctx : KofamContextS) : List String :=
  get_ko_skip_list ctx.ko_dict

/-- `self.database_url`. -/
def database_url : String := "ftp://ftp.genome.jp/pub/db/kofam"

/-- `self.files`: the remote file names fetched by the setup. -/
def kofamSetup_files : List String := ["ko_list.gz", "profiles.tar.gz"]

def program_missing_msg : String :=
  "hmmpress is not installed on this system."

/-- Message of the `ConfigError` raised by `is_database_exists`. -/
def database_exists_msg (dir : String) : String :=
  "It seems you already have KOfam HMM profiles installed in " ++ dir ++
    ", please use --reset flag if you want to re-download it."

/-- Message of the `ConfigError` raised when `hmmpress` fails. -/
def hmmpress_err_msg (log : String) : String :=
  "Hmm. There was an error while running hmmpress on the Kofam HMM profiles. Check out the log file (" ++
    log ++ ") to see what went wrong."

/-- `KofamSetup.__init__` (after the base context is built): check that
`hmmpress` is installed, run the existence guard unless reset or debug is
set, then prepare the output directory (clearing it when reset is set).
Returns the raised error, if any, and the resulting filesystem. -/
def kofamSetup_init (dir : String) (reset DEBUG hmmpress_installed : Bool) (fs : FS) :
    Except KofamError Unit × FS :=
  if hmmpress_installed = false then
    (Except.error (KofamError.configError program_missing_msg), fs)
  else if reset = false ∧ DEBUG = false ∧ ojoin dir "profiles/K00001.hmm" ∈ fs then
    (Except.error (KofamError.configError (database_exists_msg dir)), fs)
  else
    (Except.ok (), if reset then fs.filter (fun p => ! underDir dir p) else fs)

/-- `utils.download_file`: record the attempt; on success the destination
file exists afterwards. -/
def download_file (ext : Oracles) (url dest : String) : M := fun s =>
  let s1 : St := { s with trace := s.trace ++ [Event.downloadFile url dest] }
  match ext.download_err url with
  | some e => (Except.error e, s1)
  | none => (Except.ok (), { s1 with fs := dest :: s1.fs })

/-- The loop body of `KofamSetup.download` over `self.files`. -/
def download_list (ext : Oracles) (dir : String) : List String → M
  | [] => fun s => (Except.ok (), s)
  | f :: rest =>
    seqM (download_file ext (database_url ++ "/" ++ f) (ojoin dir f))
      (download_list ext dir rest)

/-- `KofamSetup.download`. -/
def download (ctx : KofamContextS) (ext : Oracles) : M :=
  download_list ext ctx.kofam_data_dir kofamSetup_files

/-- `utils.tar_extract_file` with `keep_original=False`: the archive is
replaced by its extracted contents. -/
def tar_extract_file (ext : Oracles) (full_path : String) : M := fun s =>
  let s1 : St := { s with trace := s.trace ++ [Event.tarExtract full_path] }
  match ext.tar_err full_path with
  | some e => (Except.error e, s1)
  | none =>
    (Except.ok (), { s1 with fs := ext.tar_output full_path ++ s1.fs.filter (fun p => p != full_path) })

/-- `utils.gzip_decompress_file` with `keep_original=False`. -/
def gzip_decompress_file (ext : Oracles) (full_path : String) : M := fun s =>
  let s1 : St := { s with trace := s.trace ++ [Event.gzipDecompress full_path] }
  match ext.gzip_err full_path with
  | some e => (Except.error e, s1)
  | none =>
    (Except.ok (), { s1 with fs := ext.gzip_output full_path ++ s1.fs.filter (fun p => p != full_path) })

/-- One iteration of `KofamSetup.decompress_files`: tar archives are
extracted, the rest is plain-gunzipped. -/
def decompress_one (ext : Oracles) (dir file_name : String) : M :=
  if endsWithS (ojoin dir file_name) "tar.gz" then tar_extract_file ext (ojoin dir file_name)
  else gzip_decompress_file ext (ojoin dir file_name)

def decompress_list (ext : Oracles) (dir : String) : List String → M
  | [] => fun s => (Except.ok (), s)
  | f :: rest => seqM (decompress_one ext dir f) (decompress_list ext dir rest)

/-- `KofamSetup.decompress_files`. -/
def decompress_files (ctx : KofamContextS) (ext : Oracles) : M :=
  decompress_list ext ctx.kofam_data_dir kofamSetup_files

/-- The list comprehension of `run_hmmpress`: the profile paths of the
catalog identifiers that are not in the skip list, in catalog order. -/
def hmm_list (dir : String) (ko_dict : KoDict) (skip : List String) : List String :=
  (ko_dict.map Prod.fst).filterMap
    (fun k => if k ∈ skip then none else some (hmm_path dir k))

/-- `KofamSetup.run_hmmpress`: verify completeness, concatenate the
non-skip profiles into the compiled file, delete the profiles directory
unless debugging, run `hmmpress` capturing its output into a log file,
raise on a nonzero exit status (keeping the log), and delete the log on
success. -/
def run_hmmpress (ctx : KofamContextS) (ext : Oracles) (DEBUG : Bool) : M := fun s =>
  let dir := ctx.kofam_data_dir
  let log_file_path := ojoin dir "00_hmmpress_log.txt"
  match confirm_downloaded_files dir (ctx.ko_dict.map Prod.fst) ctx.ko_skip_list s.fs with
  | Except.error e => (Except.error e, s)
  | Except.ok _ =>
    let target := kofam_hmm_file_path ctx
    let srcs := hmm_list dir ctx.ko_dict ctx.ko_skip_list
    let s1 : St := { fs := target :: s.fs, trace := s.trace ++ [Event.concatenate target srcs] }
    let s2 : St :=
      if DEBUG then s1
      else
        { fs := s1.fs.filter (fun p => ! underDir (ojoin dir "profiles") p),
          trace := s1.trace ++ [Event.rmtree (ojoin dir "profiles")] }
    let s3 : St := { fs := log_file_path :: s2.fs,
                     trace := s2.trace ++ [Event.runCommand ["hmmpress", target] log_file_path] }
    if ext.hmmpress_ret ≠ 0 then
      (Except.error (KofamError.configError (hmmpress_err_msg log_file_path)), s3)
    else
      (Except.ok (), { fs := s3.fs.filter (fun p => p != log_file_path),
                       trace := s3.trace ++ [Event.removeFile log_file_path] })

/-- `KofamSetup.setup_profiles`: the driver, running download, then
decompression, then verification/concatenation/indexing. -/
def setup_profiles (ctx : KofamContextS) (ext : Oracles) (DEBUG : Bool) : M :=
  seqM (download ctx ext) (seqM (decompress_files ctx ext) (run_hmmpress ctx ext DEBUG))

/- ------------------------------------------------------------------ -/
/- Characterization of run_hmmpress after a successful verification.   -/
/- ------------------------------------------------------------------ -/

/-- The state reached inside `run_hmmpress` after concatenation, the
optional removal of the profiles directory, and the `hmmpress` run (log
file written), before the exit status is inspected. -/
def st_after_press (ctx : KofamContextS) (DEBUG : Bool) (s : St) : St :=
  let dir := ctx.kofam_data_dir
  let target := kofam_hmm_file_path ctx
  let srcs := hmm_list dir ctx.ko_dict ctx.ko_skip_list
  let s1 : St := { fs := target :: s.fs, trace := s.trace ++ [Event.concatenate target srcs] }
  let s2 : St :=
    if DEBUG then s1
    else
      { fs := s1.fs.filter (fun p => ! underDir (ojoin dir "profiles") p),
        trace := s1.trace ++ [Event.rmtree (ojoin dir "profiles")] }
  { fs := ojoin dir "00_hmmpress_log.txt" :: s2.fs,
    trace := s2.trace ++ [Event.runCommand ["hmmpress", target] (ojoin dir "00_hmmpress_log.txt")] }

theorem run_hmmpress_err_eq (ctx : KofamContextS) (ext : Oracles) (DEBUG : Bool) (s : St)
    {e : KofamError}
    (herr : confirm_downloaded_files ctx.kofam_data_dir (ctx.ko_dict.map Prod.fst)
      ctx.ko_skip_list s.fs = Except.error e) :
    run_hmmpress ctx ext DEBUG s = (Except.error e, s) := by
  unfold run_hmmpress
  dsimp only
  rw [herr]

theorem run_hmmpress_ok_eq (ctx : KofamContextS) (ext : Oracles) (DEBUG : Bool) (s : St)
    (hok : confirm_downloaded_files ctx.kofam_data_dir (ctx.ko_dict.map Prod.fst)
      ctx.ko_skip_list s.fs = Except.ok ()) :
    run_hmmpress ctx ext DEBUG s =
      (if ext.hmmpress_ret ≠ 0 then
        (Except.error (KofamError.configError
            (hmmpress_err_msg (ojoin ctx.kofam_data_dir "00_hmmpress_log.txt"))),
          st_after_press ctx DEBUG s)
      else
        (Except.ok (),
          { fs := (st_after_press ctx DEBUG s).fs.filter
              (fun p => p != ojoin ctx.kofam_data_dir "00_hmmpress_log.txt"),
            trace := (st_after_press ctx DEBUG s).trace ++
              [Event.removeFile (ojoin ctx.kofam_data_dir "00_hmmpress_log.txt")] })) := by
  unfold run_hmmpress st_after_press
  dsimp only
  rw [hok]

theorem st_after_press_trace (ctx : KofamContextS) (DEBUG : Bool) (s : St) :
    (st_after_press ctx DEBUG s).trace =
      s.trace ++
        [Event.concatenate (kofam_hmm_file_path ctx)
          (hmm_list ctx.kofam_data_dir ctx.ko_dict ctx.ko_skip_list)] ++
        (if DEBUG then [] else [Event.rmtree (ojoin ctx.kofam_data_dir "profiles")]) ++
        [Event.runCommand ["hmmpress", kofam_hmm_file_path ctx]
          (ojoin ctx.kofam_data_dir "00_hmmpress_log.txt")] := by
  cases DEBUG <;> simp [st_after_press]

theorem underDir_profiles_target (d : String) :
    underDir (ojoin d "profiles") (ojoin d "Kofam.hmm") = false := by
  rw [underDir_ojoin]
  decide

theorem underDir_profiles_log (d : String) :
    underDir (ojoin d "profiles") (ojoin d "00_hmmpress_log.txt") = false := by
  rw [underDir_ojoin]
  decide

theorem underDir_profiles_marker (d : String) :
    underDir (ojoin d "profiles") (ojoin d "profiles/K00001.hmm") = true := by
  rw [underDir_ojoin]
  decide

theorem target_ne_log (ctx : KofamContextS) :
    kofam_hmm_file_path ctx ≠ ojoin ctx.kofam_data_dir "00_hmmpress_log.txt" := by
  intro h
  have := ojoin_right_inj h
  exact absurd this (by decide)

theorem st_after_press_fs_target (ctx : KofamContextS) (DEBUG : Bool) (s : St) :
    kofam_hmm_file_path ctx ∈ (st_after_press ctx DEBUG s).fs := by
  cases DEBUG with
  | true => simp [st_after_press]
  | false =>
    simp only [st_after_press, Bool.false_eq_true, if_neg (by simp : ¬False)]
    simp [List.mem_filter, underDir_profiles_target, kofam_hmm_file_path]

theorem st_after_press_fs_profiles_gone (ctx : KofamContextS) (s : St) (p : String)
    (hp : underDir (ojoin ctx.kofam_data_dir "profiles") p = true) :
    p ∉ (st_after_press ctx false s).fs := by
  intro hmem
  simp only [st_after_press, if_neg (by simp : ¬(false = true))] at hmem
  rcases List.mem_cons.mp hmem with h | h
  · subst h
    rw [underDir_profiles_log] at hp
    cases hp
  · have := (List.mem_filter.mp h).2
    rw [hp] at this
    cases this

theorem st_after_press_fs_debug (ctx : KofamContextS) (s : St) :
    (st_after_press ctx true s).fs =
      ojoin ctx.kofam_data_dir "00_hmmpress_log.txt" :: kofam_hmm_file_path ctx :: s.fs := by
  simp [st_after_press]

/- ------------------------------------------------------------------ -/
/- The concatenation list.                                             -/
/- ------------------------------------------------------------------ -/

theorem str_append_cancel_right {a b c : String} (h : a ++ c = b ++ c) : a = b := by
  apply String.ext
  have hd : a.data ++ c.data = b.data ++ c.data := by
    have := congrArg String.data h
    simpa [String.data_append] using this
  exact List.append_cancel_right hd

theorem hmm_path_inj {d a b : String} (h : hmm_path d a = hmm_path d b) : a = b := by
  unfold hmm_path at h
  have h1 := ojoin_right_inj h
  have h2 := str_append_cancel_right h1
  exact str_append_cancel_left h2

theorem filterMap_skip_eq (dir : String) (skip : List String) :
    ∀ l : List String,
      l.filterMap (fun k => if k ∈ skip then none else some (hmm_path dir k)) =
        (l.filter (fun k => decide (k ∉ skip))).map (hmm_path dir) := by
  intro l
  induction l with
  | nil => rfl
  | cons k rest ih =>
    by_cases hk : k ∈ skip
    · simp [List.filterMap_cons, List.filter_cons, hk, ih]
    · simp [List.filterMap_cons, List.filter_cons, hk, ih]

theorem mem_hmm_list {dir : String} {d : KoDict} {skip : List String} {p : String} :
    p ∈ hmm_list dir d skip ↔
      ∃ k, k ∈ d.map Prod.fst ∧ k ∉ skip ∧ p = hmm_path dir k := by
  unfold hmm_list
  rw [List.mem_filterMap]
  constructor
  · rintro ⟨k, hk, hif⟩
    by_cases hks : k ∈ skip
    · rw [if_pos hks] at hif
      cases hif
    · rw [if_neg hks] at hif
      exact ⟨k, hk, hks, (Option.some_inj.mp hif).symm⟩
  · rintro ⟨k, hk, hks, rfl⟩
    exact ⟨k, hk, by rw [if_neg hks]⟩

theorem hmm_list_excludes_skip {dir : String} {d : KoDict} {skip : List String} {k : String}
    (hk : k ∈ skip) : hmm_path dir k ∉ hmm_list dir d skip := by
  intro hmem
  obtain ⟨k', _, hks', heq⟩ := mem_hmm_list.mp hmem
  exact hks' (hmm_path_inj heq ▸ hk)

/-- Claim C3: the list of files concatenated into the compiled artifact by
`run_hmmpress` is exactly the profile files of the non-skip identifiers of
the catalog, in catalog iteration order; the profile file of every
skip-listed identifier is excluded from that list (the list is computed
from the catalog alone, never from the filesystem, so a skip identifier's
file is excluded even when it exists on disk). -/
theorem run_hmmpress_concat_claim3 (ctx : KofamContextS) (ext : Oracles) (DEBUG : Bool) (s : St)
    (hok : confirm_downloaded_files ctx.kofam_data_dir (ctx.ko_dict.map Prod.fst)
      ctx.ko_skip_list s.fs = Except.ok ()) :
    Event.concatenate (kofam_hmm_file_path ctx)
        (hmm_list ctx.kofam_data_dir ctx.ko_dict ctx.ko_skip_list) ∈
      (run_hmmpress ctx ext DEBUG s).2.trace ∧
    hmm_list ctx.kofam_data_dir ctx.ko_dict ctx.ko_skip_list =
      ((ctx.ko_dict.map Prod.fst).filter (fun k => decide (k ∉ ctx.ko_skip_list))).map
        (hmm_path ctx.kofam_data_dir) ∧
    (∀ p, p ∈ hmm_list ctx.kofam_data_dir ctx.ko_dict ctx.ko_skip_list ↔
       ∃ k, k ∈ ctx.ko_dict.map Prod.fst ∧ k ∉ ctx.ko_skip_list ∧
         p = hmm_path ctx.kofam_data_dir k) ∧
    (∀ k, k ∈ ctx.ko_skip_list →
       hmm_path ctx.kofam_data_dir k ∉ hmm_list ctx.kofam_data_dir ctx.ko_dict ctx.ko_skip_list) := by
  refine ⟨?_, filterMap_skip_eq ctx.kofam_data_dir ctx.ko_skip_list (ctx.ko_dict.map Prod.fst),
    fun p => mem_hmm_list, fun k hk => hmm_list_excludes_skip hk⟩
  rw [run_hmmpress_ok_eq ctx ext DEBUG s hok]
  by_cases hr : ext.hmmpress_ret ≠ 0
  · rw [if_pos hr]
    rw [st_after_press_trace]
    simp
  · rw [if_neg hr]
    simp only [st_after_press_trace]
    simp

/- ------------------------------------------------------------------ -/
/- Claim C4: the construction-time existence guard.                    -/
/- ------------------------------------------------------------------ -/

/-- Claim C4: at construction, without the reset option and debug
override, the presence of the marker file `profiles/K00001.hmm` under the
target directory makes construction fail with the `ConfigError`
instructing the caller to use the reset option, leaving the filesystem
untouched (in particular no download has happened); with the reset option
the existence check is skipped (construction succeeds whatever the
filesystem holds) and the target directory is cleared. -/
theorem kofamSetup_init_claim4 (dir : String) (DEBUG : Bool) (fs : FS) :
    (ojoin dir "profiles/K00001.hmm" ∈ fs →
       kofamSetup_init dir false false true fs =
         (Except.error (KofamError.configError (database_exists_msg dir)), fs)) ∧
    (kofamSetup_init dir true DEBUG true fs).1 = Except.ok () ∧
    (∀ p, underDir dir p = true → p ∉ (kofamSetup_init dir true DEBUG true fs).2) := by
  refine ⟨fun hmem => ?_, ?_, fun p hp hmem => ?_⟩
  · simp [kofamSetup_init, hmem]
  · simp [kofamSetup_init]
  · simp only [kofamSetup_init] at hmem
    rw [if_neg (by simp : ¬(true = false)), if_neg (by simp : ¬(true = false ∧ DEBUG = false ∧ ojoin dir "profiles/K00001.hmm" ∈ fs))] at hmem
    simp only [if_pos rfl] at hmem
    have := (List.mem_filter.mp hmem).2
    rw [hp] at this
    cases this

/-- Witness for C4: with the marker file present and no reset, the
construction raises the existence-guard error and leaves the filesystem
unchanged. -/
theorem claim4_witness :
    kofamSetup_init "KEGG" false false true [ojoin "KEGG" "profiles/K00001.hmm"] =
      (Except.error (KofamError.configError (database_exists_msg "KEGG")),
        [ojoin "KEGG" "profiles/K00001.hmm"]) :=
  (kofamSetup_init_claim4 "KEGG" false [ojoin "KEGG" "profiles/K00001.hmm"]).1
    (List.mem_singleton.mpr rfl)

/- ------------------------------------------------------------------ -/
/- Claims C6 and C8: indexing outcome and cleanup.                     -/
/- ------------------------------------------------------------------ -/

/-- Claim C6: when `hmmpress` exits nonzero, `run_hmmpress` raises the
`ConfigError` referencing the log file path and the log file still exists;
when it exits zero, the stage succeeds and the log file is deleted. -/
theorem run_hmmpress_indexer_claim6 (ctx : KofamContextS) (ext : Oracles) (DEBUG : Bool) (s : St)
    (hok : confirm_downloaded_files ctx.kofam_data_dir (ctx.ko_dict.map Prod.fst)
      ctx.ko_skip_list s.fs = Except.ok ()) :
    (ext.hmmpress_ret ≠ 0 →
       (run_hmmpress ctx ext DEBUG s).1 =
         Except.error (KofamError.configError
           (hmmpress_err_msg (ojoin ctx.kofam_data_dir "00_hmmpress_log.txt"))) ∧
       ojoin ctx.kofam_data_dir "00_hmmpress_log.txt" ∈ (run_hmmpress ctx ext DEBUG s).2.fs) ∧
    (ext.hmmpress_ret = 0 →
       (run_hmmpress ctx ext DEBUG s).1 = Except.ok () ∧
       ojoin ctx.kofam_data_dir "00_hmmpress_log.txt" ∉ (run_hmmpress ctx ext DEBUG s).2.fs) := by
  rw [run_hmmpress_ok_eq ctx ext DEBUG s hok]
  constructor
  · intro hr
    rw [if_pos hr]
    exact ⟨rfl, by simp [st_after_press]⟩
  · intro hr
    rw [if_neg (by simp [hr])]
    refine ⟨rfl, fun hmem => ?_⟩
    have := (List.mem_filter.mp hmem).2
    simp at this

/-- Claim C8: after the concatenation inside `run_hmmpress`, when the
debug override is not active every file under the profiles subdirectory is
deleted; when it is active, the per-identifier files present before the
stage are left intact; and the compiled artifact exists at the end in
either case (it is never removed). -/
theorem run_hmmpress_cleanup_claim8 (ctx : KofamContextS) (ext : Oracles) (DEBUG : Bool) (s : St)
    (hok : confirm_downloaded_files ctx.kofam_data_dir (ctx.ko_dict.map Prod.fst)
      ctx.ko_skip_list s.fs = Except.ok ()) :
    (DEBUG = false → ∀ p, underDir (ojoin ctx.kofam_data_dir "profiles") p = true →
       p ∉ (run_hmmpress ctx ext DEBUG s).2.fs) ∧
    (DEBUG = true → ∀ p, p ∈ s.fs → underDir (ojoin ctx.kofam_data_dir "profiles") p = true →
       p ∈ (run_hmmpress ctx ext DEBUG s).2.fs) ∧
    kofam_hmm_file_path ctx ∈ (run_hmmpress ctx ext DEBUG s).2.fs := by
  rw [run_hmmpress_ok_eq ctx ext DEBUG s hok]
  refine ⟨fun hdbg p hp hmem => ?_, fun hdbg p hpfs hp => ?_, ?_⟩
  · subst hdbg
    by_cases hr : ext.hmmpress_ret ≠ 0
    · rw [if_pos hr] at hmem
      exact st_after_press_fs_profiles_gone ctx s p hp hmem
    · rw [if_neg hr] at hmem
      exact st_after_press_fs_profiles_gone ctx s p hp (List.mem_filter.mp hmem).1
  · subst hdbg
    have hplog : p ≠ ojoin ctx.kofam_data_dir "00_hmmpress_log.txt" := by
      intro h
      rw [h, underDir_profiles_log] at hp
      cases hp
    by_cases hr : ext.hmmpress_ret ≠ 0
    · rw [if_pos hr]
      rw [st_after_press_fs_debug]
      simp [hpfs]
    · rw [if_neg hr]
      simp only [List.mem_filter, st_after_press_fs_debug]
      refine ⟨by simp [hpfs], by simpa using hplog⟩
  · by_cases hr : ext.hmmpress_ret ≠ 0
    · rw [if_pos hr]
      exact st_after_press_fs_target ctx DEBUG s
    · rw [if_neg hr]
      rw [List.mem_filter]
      refine ⟨st_after_press_fs_target ctx DEBUG s, by simpa using target_ne_log ctx⟩

/-- Claim C9: after a successful non-debug `run_hmmpress`, the marker file
`profiles/K00001.hmm` checked by the pre-run existence guard no longer
exists, so a subsequent construction against the same directory without
the reset option passes the guard. -/
theorem rerun_guard_claim9 (ctx : KofamContextS) (ext : Oracles) (s : St)
    (hok : confirm_downloaded_files ctx.kofam_data_dir (ctx.ko_dict.map Prod.fst)
      ctx.ko_skip_list s.fs = Except.ok ())
    (hret : ext.hmmpress_ret = 0) :
    ojoin ctx.kofam_data_dir "profiles/K00001.hmm" ∉ (run_hmmpress ctx ext false s).2.fs ∧
    (kofamSetup_init ctx.kofam_data_dir false false true (run_hmmpress ctx ext false s).2.fs).1 =
      Except.ok () := by
  have hmarker : ojoin ctx.kofam_data_dir "profiles/K00001.hmm" ∉ (run_hmmpress ctx ext false s).2.fs := by
    rw [run_hmmpress_ok_eq ctx ext false s hok, if_neg (by simp [hret])]
    intro hmem
    exact st_after_press_fs_profiles_gone ctx s _ (underDir_profiles_marker ctx.kofam_data_dir)
      (List.mem_filter.mp hmem).1
  refine ⟨hmarker, ?_⟩
  simp [kofamSetup_init, hmarker]

/- ------------------------------------------------------------------ -/
/- Stage frame lemmas for the driver.                                  -/
/- ------------------------------------------------------------------ -/

theorem download_file_trace (ext : Oracles) (u p : String) (s : St) (ev : Event)
    (h : ev ∈ ((download_file ext u p) s).2.trace) :
    ev ∈ s.trace ∨ ev = Event.downloadFile u p := by
  unfold download_file at h
  cases hdl : ext.download_err u with
  | some e =>
    rw [hdl] at h
    simp only at h
    rcases List.mem_append.mp h with h1 | h1
    · exact Or.inl h1
    · exact Or.inr (List.mem_singleton.mp h1)
  | none =>
    rw [hdl] at h
    simp only at h
    rcases List.mem_append.mp h with h1 | h1
    · exact Or.inl h1
    · exact Or.inr (List.mem_singleton.mp h1)

theorem download_file_fs (ext : Oracles) (u p : String) (s : St) (q : String)
    (h : q ∈ ((download_file ext u p) s).2.fs) :
    q ∈ s.fs ∨ q = p := by
  unfold download_file at h
  cases hdl : ext.download_err u with
  | some e =>
    rw [hdl] at h
    exact Or.inl h
  | none =>
    rw [hdl] at h
    simp only at h
    rcases List.mem_cons.mp h with h1 | h1
    · exact Or.inr h1
    · exact Or.inl h1

theorem download_list_trace (ext : Oracles) (dir : String) :
    ∀ (l : List String) (s : St) (ev : Event),
      ev ∈ ((download_list ext dir l) s).2.trace →
      ev ∈ s.trace ∨ ∃ u p, ev = Event.downloadFile u p := by
  intro l
  induction l with
  | nil => intro s ev h; exact Or.inl h
  | cons f rest ih =>
    intro s ev h
    unfold download_list seqM at h
    rcases hstep : (download_file ext (database_url ++ "/" ++ f) (ojoin dir f)) s with ⟨r, s1⟩
    rw [hstep] at h
    cases r with
    | error e =>
      simp only at h
      rcases download_file_trace ext _ _ s ev (by rw [hstep]; exact h) with h1 | h1
      · exact Or.inl h1
      · exact Or.inr ⟨_, _, h1⟩
    | ok a =>
      simp only at h
      rcases ih s1 ev h with h1 | h1
      · rcases download_file_trace ext _ _ s ev (by rw [hstep]; exact h1) with h2 | h2
        · exact Or.inl h2
        · exact Or.inr ⟨_, _, h2⟩
      · exact Or.inr h1

theorem download_list_fs (ext : Oracles) (dir : String) :
    ∀ (l : List String) (s : St) (q : String),
      q ∈ ((download_list ext dir l) s).2.fs →
      q ∈ s.fs ∨ ∃ f ∈ l, q = ojoin dir f := by
  intro l
  induction l with
  | nil => intro s q h; exact Or.inl h
  | cons f rest ih =>
    intro s q h
    unfold download_list seqM at h
    rcases hstep : (download_file ext (database_url ++ "/" ++ f) (ojoin dir f)) s with ⟨r, s1⟩
    rw [hstep] at h
    cases r with
    | error e =>
      simp only at h
      rcases download_file_fs ext _ _ s q (by rw [hstep]; exact h) with h1 | h1
      · exact Or.inl h1
      · exact Or.inr ⟨f, List.mem_cons_self f rest, h1⟩
    | ok a =>
      simp only at h
      rcases ih s1 q h with h1 | h1
      · rcases download_file_fs ext _ _ s q (by rw [hstep]; exact h1) with h2 | h2
        · exact Or.inl h2
        · exact Or.inr ⟨f, List.mem_cons_self f rest, h2⟩
      · obtain ⟨g, hg, hq⟩ := h1
        exact Or.inr ⟨g, List.mem_cons_of_mem f hg, hq⟩

theorem decompress_one_trace (ext : Oracles) (dir f : String) (s : St) (ev : Event)
    (h : ev ∈ ((decompress_one ext dir f) s).2.trace) :
    ev ∈ s.trace ∨ (∃ q, ev = Event.tarExtract q) ∨ (∃ q, ev = Event.gzipDecompress q) := by
  unfold decompress_one at h
  by_cases hend : endsWithS (ojoin dir f) "tar.gz"
  · rw [if_pos hend] at h
    unfold tar_extract_file at h
    cases hx : ext.tar_err (ojoin dir f) with
    | some e =>
      rw [hx] at h
      simp only at h
      rcases List.mem_append.mp h with h1 | h1
      · exact Or.inl h1
      · exact Or.inr (Or.inl ⟨_, List.mem_singleton.mp h1⟩)
    | none =>
      rw [hx] at h
      simp only at h
      rcases List.mem_append.mp h with h1 | h1
      · exact Or.inl h1
      · exact Or.inr (Or.inl ⟨_, List.mem_singleton.mp h1⟩)
  · rw [if_neg hend] at h
    unfold gzip_decompress_file at h
    cases hx : ext.gzip_err (ojoin dir f) with
    | some e =>
      rw [hx] at h
      simp only at h
      rcases List.mem_append.mp h with h1 | h1
      · exact Or.inl h1
      · exact Or.inr (Or.inr ⟨_, List.mem_singleton.mp h1⟩)
    | none =>
      rw [hx] at h
      simp only at h
      rcases List.mem_append.mp h with h1 | h1
      · exact Or.inl h1
      · exact Or.inr (Or.inr ⟨_, List.mem_singleton.mp h1⟩)

theorem decompress_one_fs (ext : Oracles) (dir f : String) (s : St) (q : String)
    (h : q ∈ ((decompress_one ext dir f) s).2.fs) :
    q ∈ s.fs ∨ q ∈ ext.tar_output (ojoin dir f) ∨ q ∈ ext.gzip_output (ojoin dir f) := by
  unfold decompress_one at h
  by_cases hend : endsWithS (ojoin dir f) "tar.gz"
  · rw [if_pos hend] at h
    unfold tar_extract_file at h
    cases hx : ext.tar_err (ojoin dir f) with
    | some e =>
      rw [hx] at h
      exact Or.inl h
    | none =>
      rw [hx] at h
      simp only at h
      rcases List.mem_append.mp h with h1 | h1
      · exact Or.inr (Or.inl h1)
      · exact Or.inl (List.mem_filter.mp h1).1
  · rw [if_neg hend] at h
    unfold gzip_decompress_file at h
    cases hx : ext.gzip_err (ojoin dir f) with
    | some e =>
      rw [hx] at h
      exact Or.inl h
    | none =>
      rw [hx] at h
      simp only at h
      rcases List.mem_append.mp h with h1 | h1
      · exact Or.inr (Or.inr h1)
      · exact Or.inl (List.mem_filter.mp h1).1

theorem seqM_snd_cases (a b : M) (s : St) :
    ((a s).1 = Except.ok () ∧ seqM a b s = b (a s).2) ∨ seqM a b s = a s := by
  unfold seqM
  rcases h : a s with ⟨r, s1⟩
  cases r with
  | ok u =>
    cases u
    exact Or.inl ⟨rfl, rfl⟩
  | error e =>
    exact Or.inr rfl

theorem decompress_list_trace (ext : Oracles) (dir : String) :
    ∀ (l : List String) (s : St) (ev : Event),
      ev ∈ ((decompress_list ext dir l) s).2.trace →
      ev ∈ s.trace ∨ (∃ q, ev = Event.tarExtract q) ∨ (∃ q, ev = Event.gzipDecompress q) := by
  intro l
  induction l with
  | nil => intro s ev h; exact Or.inl h
  | cons f rest ih =>
    intro s ev h
    have hd : decompress_list ext dir (f :: rest) =
        seqM (decompress_one ext dir f) (decompress_list ext dir rest) := rfl
    rw [hd] at h
    rcases seqM_snd_cases (decompress_one ext dir f) (decompress_list ext dir rest) s with
      ⟨_, heq⟩ | heq
    · rw [heq] at h
      rcases ih _ ev h with h1 | h1
      · exact decompress_one_trace ext dir f s ev h1
      · exact Or.inr h1
    · rw [heq] at h
      exact decompress_one_trace ext dir f s ev h

theorem decompress_list_fs (ext : Oracles) (dir : String) :
    ∀ (l : List String) (s : St) (q : String),
      q ∈ ((decompress_list ext dir l) s).2.fs →
      q ∈ s.fs ∨ ∃ f ∈ l, q ∈ ext.tar_output (ojoin dir f) ∨ q ∈ ext.gzip_output (ojoin dir f) := by
  intro l
  induction l with
  | nil => intro s q h; exact Or.inl h
  | cons f rest ih =>
    intro s q h
    have hd : decompress_list ext dir (f :: rest) =
        seqM (decompress_one ext dir f) (decompress_list ext dir rest) := rfl
    rw [hd] at h
    rcases seqM_snd_cases (decompress_one ext dir f) (decompress_list ext dir rest) s with
      ⟨_, heq⟩ | heq
    · rw [heq] at h
      rcases ih _ q h with h1 | h1
      · rcases decompress_one_fs ext dir f s q h1 with h2 | h2
        · exact Or.inl h2
        · exact Or.inr ⟨f, List.mem_cons_self f rest, h2⟩
      · obtain ⟨g, hg, hq⟩ := h1
        exact Or.inr ⟨g, List.mem_cons_of_mem f hg, hq⟩
    · rw [heq] at h
      rcases decompress_one_fs ext dir f s q h with h1 | h1
      · exact Or.inl h1
      · exact Or.inr ⟨f, List.mem_cons_self f rest, h1⟩

theorem artifact_not_download_dest (ctx : KofamContextS) (f : String)
    (hf : f ∈ kofamSetup_files) : kofam_hmm_file_path ctx ≠ ojoin ctx.kofam_data_dir f := by
  intro h
  have hinj := ojoin_right_inj h
  simp only [kofamSetup_files, List.mem_cons] at hf
  rcases hf with rfl | rfl | hf
  · exact absurd hinj (by decide)
  · exact absurd hinj (by decide)
  · cases hf

/-- Claim C5: the driver `setup_profiles` runs download, decompression and
the verify/concatenate/index stage in strict sequence: a failing download
or decompression aborts the run with that error propagated unchanged; when
both succeed the run continues exactly as `run_hmmpress`; if verification
then fails, that `ConfigError` is propagated, no concatenation and no
indexer invocation appear in the trace, and no compiled artifact is
produced; and on a successful verification the trace performs the
concatenation strictly before the indexer invocation. -/
theorem setup_profiles_claim5 (ctx : KofamContextS) (ext : Oracles) (DEBUG : Bool)
    (s sd sx : St) :
    (∀ e, download ctx ext s = (Except.error e, sd) →
       setup_profiles ctx ext DEBUG s = (Except.error e, sd)) ∧
    (download ctx ext s = (Except.ok (), sd) →
      (∀ e, decompress_files ctx ext sd = (Except.error e, sx) →
         setup_profiles ctx ext DEBUG s = (Except.error e, sx)) ∧
      (decompress_files ctx ext sd = (Except.ok (), sx) →
        setup_profiles ctx ext DEBUG s = run_hmmpress ctx ext DEBUG sx ∧
        (∀ e, confirm_downloaded_files ctx.kofam_data_dir (ctx.ko_dict.map Prod.fst)
            ctx.ko_skip_list sx.fs = Except.error e →
          setup_profiles ctx ext DEBUG s = (Except.error e, sx) ∧
          (s.trace = [] → ∀ ev ∈ sx.trace, isConcatEvent ev = false ∧ isIndexerEvent ev = false) ∧
          (kofam_hmm_file_path ctx ∉ s.fs →
           (∀ q, kofam_hmm_file_path ctx ∉ ext.tar_output q) →
           (∀ q, kofam_hmm_file_path ctx ∉ ext.gzip_output q) →
           kofam_hmm_file_path ctx ∉ sx.fs)) ∧
        (confirm_downloaded_files ctx.kofam_data_dir (ctx.ko_dict.map Prod.fst)
            ctx.ko_skip_list sx.fs = Except.ok () →
          (setup_profiles ctx ext DEBUG s).2.trace =
            sx.trace ++
              [Event.concatenate (kofam_hmm_file_path ctx)
                (hmm_list ctx.kofam_data_dir ctx.ko_dict ctx.ko_skip_list)] ++
              (if DEBUG then [] else [Event.rmtree (ojoin ctx.kofam_data_dir "profiles")]) ++
              [Event.runCommand ["hmmpress", kofam_hmm_file_path ctx]
                (ojoin ctx.kofam_data_dir "00_hmmpress_log.txt")] ++
              (if ext.hmmpress_ret = 0 then
                [Event.removeFile (ojoin ctx.kofam_data_dir "00_hmmpress_log.txt")]
               else [])))) := by
  constructor
  · intro e hdl
    unfold setup_profiles seqM
    rw [hdl]
  · intro hdl
    have h1 : setup_profiles ctx ext DEBUG s =
        seqM (decompress_files ctx ext) (run_hmmpress ctx ext DEBUG) sd := by
      unfold setup_profiles seqM
      rw [hdl]
    have hsd2 : (download_list ext ctx.kofam_data_dir kofamSetup_files s).2 = sd :=
      congrArg Prod.snd hdl
    constructor
    · intro e hdec
      rw [h1]
      unfold seqM
      rw [hdec]
    · intro hdec
      have h2 : setup_profiles ctx ext DEBUG s = run_hmmpress ctx ext DEBUG sx := by
        rw [h1]
        unfold seqM
        rw [hdec]
      have hsx2 : (decompress_list ext ctx.kofam_data_dir kofamSetup_files sd).2 = sx :=
        congrArg Prod.snd hdec
      refine ⟨h2, fun e hcerr => ?_, fun hcok => ?_⟩
      · refine ⟨by rw [h2]; exact run_hmmpress_err_eq ctx ext DEBUG sx hcerr,
          fun htr ev hev => ?_, fun hart htar hgz hmem => ?_⟩
        · have hev2 : ev ∈ (decompress_list ext ctx.kofam_data_dir kofamSetup_files sd).2.trace := by
            rw [hsx2]; exact hev
          rcases decompress_list_trace ext ctx.kofam_data_dir kofamSetup_files sd ev hev2 with
            h3 | ⟨q, rfl⟩ | ⟨q, rfl⟩
          · have h4 : ev ∈ (download_list ext ctx.kofam_data_dir kofamSetup_files s).2.trace := by
              rw [hsd2]; exact h3
            rcases download_list_trace ext ctx.kofam_data_dir kofamSetup_files s ev h4 with
              h5 | ⟨u, p, rfl⟩
            · rw [htr] at h5
              cases h5
            · exact ⟨rfl, rfl⟩
          · exact ⟨rfl, rfl⟩
          · exact ⟨rfl, rfl⟩
        · have hmem2 : kofam_hmm_file_path ctx ∈
              (decompress_list ext ctx.kofam_data_dir kofamSetup_files sd).2.fs := by
            rw [hsx2]; exact hmem
          rcases decompress_list_fs ext ctx.kofam_data_dir kofamSetup_files sd _ hmem2 with
            h3 | ⟨f, _, h4 | h4⟩
          · have h5 : kofam_hmm_file_path ctx ∈
                (download_list ext ctx.kofam_data_dir kofamSetup_files s).2.fs := by
              rw [hsd2]; exact h3
            rcases download_list_fs ext ctx.kofam_data_dir kofamSetup_files s _ h5 with
              h6 | ⟨f, hf, h7⟩
            · exact hart h6
            · exact artifact_not_download_dest ctx f hf h7
          · exact htar (ojoin ctx.kofam_data_dir f) h4
          · exact hgz (ojoin ctx.kofam_data_dir f) h4
      · rw [h2, run_hmmpress_ok_eq ctx ext DEBUG sx hcok]
        by_cases hr : ext.hmmpress_ret = 0
        · rw [if_neg (by simp [hr])]
          simp [st_after_press_trace, hr]
        · rw [if_pos hr]
          simp [st_after_press_trace, hr]

/- ------------------------------------------------------------------ -/
/- Concrete fixtures for the witnesses.                                -/
/- ------------------------------------------------------------------ -/

def ctx0 : KofamContextS := ⟨"KEGG", [("K00001", realEntry)]⟩

def ctx1 : KofamContextS := ⟨"KEGG", [("K00001", realEntry), ("K14936", dashEntry)]⟩

def ext0 : Oracles := ⟨fun _ => none, fun _ => none, fun _ => [], fun _ => none, fun _ => [], 0⟩

def extBad : Oracles := ⟨fun _ => none, fun _ => none, fun _ => [], fun _ => none, fun _ => [], 2⟩

def sfull : St := ⟨[hmm_path "KEGG" "K00001"], []⟩

def sboth : St := ⟨[hmm_path "KEGG" "K00001", hmm_path "KEGG" "K14936"], []⟩

def s0 : St := ⟨[], []⟩

def sd0 : St :=
  ⟨["KEGG/profiles.tar.gz", "KEGG/ko_list.gz"],
   [Event.downloadFile "ftp://ftp.genome.jp/pub/db/kofam/ko_list.gz" "KEGG/ko_list.gz",
    Event.downloadFile "ftp://ftp.genome.jp/pub/db/kofam/profiles.tar.gz" "KEGG/profiles.tar.gz"]⟩

def sx0 : St :=
  ⟨[],
   [Event.downloadFile "ftp://ftp.genome.jp/pub/db/kofam/ko_list.gz" "KEGG/ko_list.gz",
    Event.downloadFile "ftp://ftp.genome.jp/pub/db/kofam/profiles.tar.gz" "KEGG/profiles.tar.gz",
    Event.gzipDecompress "KEGG/ko_list.gz",
    Event.tarExtract "KEGG/profiles.tar.gz"]⟩

theorem confirm_ctx0_sfull :
    confirm_downloaded_files ctx0.kofam_data_dir (ctx0.ko_dict.map Prod.fst)
      ctx0.ko_skip_list sfull.fs = Except.ok () := rfl

theorem confirm_ctx1_sboth :
    confirm_downloaded_files ctx1.kofam_data_dir (ctx1.ko_dict.map Prod.fst)
      ctx1.ko_skip_list sboth.fs = Except.ok () := rfl

/-- Witness for C3: on a catalog with one populated and one placeholder
entry, and both profile files present on disk, the concatenation event
occurs and the skip-listed identifier's file is not among its sources. -/
theorem claim3_witness :
    Event.concatenate (kofam_hmm_file_path ctx1)
        (hmm_list ctx1.kofam_data_dir ctx1.ko_dict ctx1.ko_skip_list) ∈
      (run_hmmpress ctx1 ext0 false sboth).2.trace ∧
    hmm_path ctx1.kofam_data_dir "K14936" ∉
      hmm_list ctx1.kofam_data_dir ctx1.ko_dict ctx1.ko_skip_list :=
  ⟨(run_hmmpress_concat_claim3 ctx1 ext0 false sboth confirm_ctx1_sboth).1,
   (run_hmmpress_concat_claim3 ctx1 ext0 false sboth confirm_ctx1_sboth).2.2.2
     "K14936" (by decide)⟩

/-- Witness for C5: a run whose archive lacks the only required profile
fails after decompression with the completeness `ConfigError`, leaves no
concatenation or indexer event in the trace, and produces no artifact. -/
theorem claim5_witness :
    setup_profiles ctx0 ext0 false s0 =
      (Except.error (KofamError.configError (confirm_err_msg (hmm_path "KEGG" "K00001"))), sx0) ∧
    (∀ ev ∈ sx0.trace, isConcatEvent ev = false ∧ isIndexerEvent ev = false) ∧
    kofam_hmm_file_path ctx0 ∉ sx0.fs := by
  have H := (((setup_profiles_claim5 ctx0 ext0 false s0 sd0 sx0).2 rfl).2 rfl).2.1
    (KofamError.configError (confirm_err_msg (hmm_path "KEGG" "K00001"))) rfl
  exact ⟨H.1, fun ev hev => H.2.1 rfl ev hev,
    H.2.2 (List.not_mem_nil _) (fun q => List.not_mem_nil _) (fun q => List.not_mem_nil _)⟩

/-- Witness for C6: with the indexer exiting nonzero, the stage raises the
`ConfigError` naming the log path and the log file remains. -/
theorem claim6_witness :
    (run_hmmpress ctx0 extBad false sfull).1 =
      Except.error (KofamError.configError
        (hmmpress_err_msg (ojoin ctx0.kofam_data_dir "00_hmmpress_log.txt"))) ∧
    ojoin ctx0.kofam_data_dir "00_hmmpress_log.txt" ∈ (run_hmmpress ctx0 extBad false sfull).2.fs :=
  (run_hmmpress_indexer_claim6 ctx0 extBad false sfull confirm_ctx0_sfull).1 (by decide)

/-- Witness for C8: after a non-debug run the per-identifier profile file
is gone while the compiled artifact exists. -/
theorem claim8_witness :
    hmm_path "KEGG" "K00001" ∉ (run_hmmpress ctx0 ext0 false sfull).2.fs ∧
    kofam_hmm_file_path ctx0 ∈ (run_hmmpress ctx0 ext0 false sfull).2.fs :=
  ⟨(run_hmmpress_cleanup_claim8 ctx0 ext0 false sfull confirm_ctx0_sfull).1 rfl
      (hmm_path "KEGG" "K00001") (by decide),
   (run_hmmpress_cleanup_claim8 ctx0 ext0 false sfull confirm_ctx0_sfull).2.2⟩

/-- Witness for C9: after the successful non-debug run, the marker file is
gone and a new construction without reset passes the guard. -/
theorem claim9_witness :
    ojoin ctx0.kofam_data_dir "profiles/K00001.hmm" ∉ (run_hmmpress ctx0 ext0 false sfull).2.fs ∧
    (kofamSetup_init ctx0.kofam_data_dir false false true
      (run_hmmpress ctx0 ext0 false sfull).2.fs).1 = Except.ok () :=
  rerun_guard_claim9 ctx0 ext0 sfull confirm_ctx0_sfull rfl
